import Mathlib

/-!
Verification development for the presentation-analyzer compliance engine
(`src/utils/analyzer.py`).  The Python code is shallowly embedded: pure
functions become Lean functions on `List Char` / `String` / `ℚ`, Python
exceptions become `Except Unit` values or explicit `…Ok : Bool` fields on the
modelled records, Python floats become exact rationals, and the external OCR
engine (`pytesseract.image_to_data`) becomes an oracle parameter supplying the
token list the engine would return.
-/

set_option maxRecDepth 10000

/- Batteries marks the rational-number operations `@[irreducible]`, which
blocks `decide` from evaluating the embedded functions at concrete inputs;
restore the definitional behaviour locally (the kernel re-checks every such
proof in full). -/
attribute [local semireducible] Rat.add Rat.mul Rat.inv Rat.sub
  Rat.ofScientific

/-! ## Python string primitives -/

/-- Model of Python whitespace (the characters `str.strip` and `\s` treat as
whitespace for the ASCII range used by this program). -/
def isPyWs (c : Char) : Bool :=
  c = (' ') || c = ('\t') || c = ('\n') || c = ('\r') ||
  c = (Char.ofNat 11) || c = (Char.ofNat 12)

/-- Model of `str.strip()` on the character list of a string. -/
def pyStrip (l : List Char) : List Char :=
  ((l.dropWhile isPyWs).reverse.dropWhile isPyWs).reverse

/-- Model of `str.strip()` returning a `String`. -/
def pyStripS (s : String) : String := ⟨pyStrip s.data⟩

/-- Model of Python `str.lower()` on one character, for the ASCII letters and
the Cyrillic letters this program manipulates (`А`–`Я` → `а`–`я`, `Ё` → `ё`). -/
def pyLowerChar (c : Char) : Char :=
  if 65 ≤ c.toNat ∧ c.toNat ≤ 90 then Char.ofNat (c.toNat + 32)
  else if 0x410 ≤ c.toNat ∧ c.toNat ≤ 0x42F then Char.ofNat (c.toNat + 32)
  else if c.toNat = 0x401 then Char.ofNat 0x451
  else c

/-- ASCII decimal digit test (the `0`–`9` range of Python `str.isdigit` and
of the regex class `\d` for this program's inputs). -/
def isDigitChar (c : Char) : Bool := 48 ≤ c.toNat && c.toNat ≤ 57

/-- Model of Python `str.lower()`. -/
def pyLowerS (s : String) : String := ⟨s.data.map pyLowerChar⟩

/-- Model of Python `str.isdigit()` for ASCII strings: non-empty and all
decimal digits. -/
def pyIsDigit (l : List Char) : Bool := !l.isEmpty && l.all isDigitChar

/-- Model of Python `int(s)` on a string of decimal digits. -/
def pyToNat (l : List Char) : Nat :=
  l.foldl (fun acc c => acc * 10 + (c.toNat - ('0').toNat)) 0

/-- Model of Python `str.split(sep)` for a one-character separator: empty
pieces are kept, exactly as in Python. -/
def pySplit (sep : Char) : List Char → List (List Char)
  | [] => [[]]
  | c :: rest =>
    if c = sep then [] :: pySplit sep rest
    else
      match pySplit sep rest with
      | [] => [[c]]
      | h :: t => (c :: h) :: t

/-- Model of Python `", ".join(tags)` as used for the status string. -/
def joinTags : List String → String
  | [] => ("")
  | [t] => t
  | t :: rest => t ++ (", ") ++ joinTags rest

/-- Model of Python `" ".join(parts)`. -/
def joinSpace : List String → String
  | [] => ("")
  | [t] => t
  | t :: rest => t ++ (" ") ++ joinSpace rest

/-- Model of Python `round(q, 1)` (round half to even at one decimal place),
on exact rationals. -/
def pyRound1 (q : ℚ) : ℚ :=
  let x := 10 * q
  let n := ⌊x⌋
  let r := x - n
  let k : ℤ :=
    if r < 1/2 then n
    else if 1/2 < r then n + 1
    else if n % 2 = 0 then n else n + 1
  (k : ℚ) / 10

/-! ## Range Selector (`parse_slides_range`, lines 381–441)

Returns the parsed index list together with a flag recording whether the
fallback that mutates `self.selected_slides_range` to `"all"` fired. -/

/-- One element of the comma-separated list: either an `a-b` sub-range (end
clamped to the total, start unvalidated) or a bare in-range integer;
malformed elements are ignored. -/
def commaPartAdd (totalSlides : Nat) (acc : List Nat) (part : List Char) :
    List Nat :=
  if ('-') ∈ part then
    match pySplit ('-') part with
    | [a, b] =>
      if pyIsDigit a ∧ pyIsDigit b then
        acc ++ List.range' (pyToNat a)
          (min (pyToNat b) totalSlides + 1 - pyToNat a)
      else acc
    | _ => acc
  else if pyIsDigit part then
    let n := pyToNat part
    if 1 ≤ n ∧ n ≤ totalSlides then acc ++ [n] else acc
  else acc

/-- The raw index collection of the comma / dash branches of
`parse_slides_range` (before `sorted(set(...))`). -/
def rawSelection (totalSlides : Nat) (sr : List Char) : List Nat :=
  if (',') ∈ sr then
    (pySplit (',') sr).foldl (commaPartAdd totalSlides) []
  else if ('-') ∈ sr then
    match pySplit ('-') sr with
    | [a, b] =>
      if pyIsDigit a ∧ pyIsDigit b then
        List.range' (pyToNat a)
          (min (pyToNat b) totalSlides + 1 - pyToNat a)
      else []
    | _ => []
  else []

def parseSlidesRange (slidesRange : String) (totalSlides : Nat) :
    List Nat × Bool :=
  -- `if not slides_range or str(slides_range).lower() == 'all'`
  if slidesRange = ("") ∨ pyLowerS slidesRange = ("all") then
    (List.range' 1 totalSlides, false)
  else
    let sr := pyStrip slidesRange.data
    -- `if slides_range.isdigit()`
    if pyIsDigit sr then
      let n := pyToNat sr
      if 1 ≤ n ∧ n ≤ totalSlides then ([n], false) else ([], false)
    else
      -- `slides_range = slides_range.replace(' ', '')`
      let acc := rawSelection totalSlides (sr.filter (· ≠ (' ')))
      -- `sorted(set(slides_to_analyze))`
      let sortedL := List.insertionSort (· ≤ ·) acc.dedup
      -- empty result falls back to the full range and mutates the
      -- recorded range to "all"
      if sortedL = [] then (List.range' 1 totalSlides, true)
      else (sortedL, false)

/-! ## Character classes used by the OCR text heuristics

`str.isalpha`, `str.lower` and the regex classes are modelled for the
character repertoire this program manipulates: ASCII letters and digits plus
the Cyrillic letters `А`–`Я`, `а`–`я`, `Ё`, `ё`. -/

/-- Model of the source predicate `'а' <= c.lower() <= 'я' or c in 'ёе'`
(counts a character as a Russian letter for the ratio heuristics).  Note that
an uppercase `Ё` is not counted: `'Ё'.lower()` is `'ё'`, which lies above
`'я'`, and the literal `'ёе'` holds only lowercase letters. -/
def isRusLetterForRatio (c : Char) : Bool :=
  let lc := pyLowerChar c
  (0x430 ≤ lc.toNat && lc.toNat ≤ 0x44F) || c = ('ё') || c = ('е')

/-- Model of Python `str.isalpha()` restricted to the Latin and Cyrillic
letters occurring in this program's data. -/
def pyIsAlphaChar (c : Char) : Bool :=
  (97 ≤ c.toNat && c.toNat ≤ 122) || (65 ≤ c.toNat && c.toNat ≤ 90) ||
  (0x410 ≤ c.toNat && c.toNat ≤ 0x44F) || c = ('ё') || c = ('Ё')

/-- The regex class `[а-яА-Яa-zA-Z]` of `re.sub(r'\s[а-яА-Яa-zA-Z]\s', ' ')`
(note: no `ё`). -/
def isSingleLetterClass (c : Char) : Bool :=
  (97 ≤ c.toNat && c.toNat ≤ 122) || (65 ≤ c.toNat && c.toNat ≤ 90) ||
  (0x410 ≤ c.toNat && c.toNat ≤ 0x44F)

/-- The regex class `[А-Яа-яёЁ]` of `\b[А-Яа-яёЁ]{3,}\b`. -/
def isCyrWordChar (c : Char) : Bool :=
  (0x410 ≤ c.toNat && c.toNat ≤ 0x44F) || c = ('ё') || c = ('Ё')

/-- Model of the regex word class `\w` (used for the `\b` boundaries). -/
def isWordChar (c : Char) : Bool :=
  pyIsAlphaChar c || isDigitChar c || c = ('_')

/-! ## Low-level scanning helpers (Python `str.replace`, `str.count`,
`re.sub` with the two fixed patterns) -/

/-- Whether `p` is an initial segment of `s`. -/
def startsWith : List Char → List Char → Bool
  | [], _ => true
  | _ :: _, [] => false
  | p :: ps, c :: cs => p = c && startsWith ps cs

/-- Worker for `replaceAll`, structurally recursive on a character budget
(the budget never runs out when it starts at the length of the scanned
list, since every step consumes at least one character). -/
def replaceAllAux (pat repl : List Char) : Nat → List Char → List Char
  | _, [] => []
  | 0, s => s
  | fuel + 1, c :: rest =>
    if pat.isEmpty then c :: rest
    else if startsWith pat (c :: rest) then
      repl ++ replaceAllAux pat repl fuel (rest.drop (pat.length - 1))
    else c :: replaceAllAux pat repl fuel rest

/-- Model of Python `s.replace(pat, repl)`: replace all non-overlapping
occurrences, scanning left to right.  (The guard for an empty pattern is
never exercised: every pattern in the replacement table is non-empty.) -/
def replaceAll (pat repl s : List Char) : List Char :=
  replaceAllAux pat repl s.length s

/-- Worker for `countOccur`, structurally recursive on a character budget. -/
def countOccurAux (pat : List Char) : Nat → List Char → Nat
  | _, [] => 0
  | 0, _ => 0
  | fuel + 1, c :: rest =>
    if pat.isEmpty then 0
    else if startsWith pat (c :: rest) then
      1 + countOccurAux pat fuel (rest.drop (pat.length - 1))
    else countOccurAux pat fuel rest

/-- Model of Python `s.count(pat)` (non-overlapping occurrences, left to
right) for a non-empty pattern. -/
def countOccur (pat s : List Char) : Nat := countOccurAux pat s.length s

/-- Model of `re.sub(r'\s[а-яА-Яa-zA-Z]\s', ' ', text)`: a whitespace /
single letter / whitespace triple is replaced by one space, scanning left to
right over non-overlapping matches. -/
def subSingleLetters : List Char → List Char
  | a :: b :: c :: rest =>
    if isPyWs a && isSingleLetterClass b && isPyWs c then
      (' ') :: subSingleLetters rest
    else a :: subSingleLetters (b :: c :: rest)
  | [a, b] => [a, b]
  | [a] => [a]
  | [] => []

/-- Worker for `collapseWs`: the flag records whether the previous character
was whitespace (in which case further whitespace is absorbed into the space
already emitted). -/
def collapseWsGo (prevWs : Bool) : List Char → List Char
  | [] => []
  | a :: rest =>
    if isPyWs a then
      if prevWs then collapseWsGo true rest
      else (' ') :: collapseWsGo true rest
    else a :: collapseWsGo false rest

/-- Model of `re.sub(r'\s+', ' ', text)`: each maximal whitespace run becomes
a single space. -/
def collapseWs (l : List Char) : List Char := collapseWsGo false l

/-- Model of `'\n'.join(lines)`. -/
def joinWithNl : List (List Char) → List Char
  | [] => []
  | [l] => l
  | l :: rest => l ++ ('\n') :: joinWithNl rest

/-!  The `replacements` dict of `clean_ocr_text`, in Python dict order (the
duplicated key `` `` `` keeps its first position with its last value). -/
def replacementPairs : List (String × String) :=
  [(("Сберё"), ("Сбер")), (("СберЪ"), ("Сбер")), (("сберё"), ("сбер")),
   (("СБЕРё"), ("СБЕР")), (("ё"), ("е")), (("Ё"), ("Е")),
   (("\"\""), ("\"")), (("\x27\x27"), ("\x27")), (("\x60\x60"), ("\"")),
   (("”"), ("\"")), (("„"), ("\"")), (("«"), ("\"")), (("»"), ("\"")),
   (("—"), ("-")), (("–"), ("-")), (("\x60"), ("\x27")), (("´"), ("\x27")),
   (("‘"), ("\x27")), (("’"), ("\x27"))]

/-- Model of `clean_ocr_text` (lines 1087–1123): drop lines whose alphabetic
ratio is at most 0.3, normalise look-alike punctuation and fold `ё`, drop
isolated single letters, collapse whitespace and trim. -/
def cleanOcrText (text : String) : String :=
  if text = ("") then text
  else
    let lines := pySplit ('\n') text.data
    let cleanLines := lines.filterMap fun l =>
      let ls := pyStrip l
      if ls = [] then none
      else
        let alphaC := ls.countP pyIsAlphaChar
        let tot := ls.length
        -- `alpha_count / total_chars > 0.3`
        if 0 < tot ∧ 3 * tot < 10 * alphaC then some ls else none
    let t1 := joinWithNl cleanLines
    let t2 := replacementPairs.foldl
      (fun t pr => replaceAll pr.1.data pr.2.data t) t1
    let t3 := subSingleLetters t2
    ⟨pyStrip (collapseWs t3)⟩

/-! ## Russian word extraction (`re.findall(r'\b[А-Яа-яёЁ]{3,}\b', text)`) -/

/-- A `\b` boundary on the side of a neighbouring character: satisfied when
there is no neighbour or the neighbour is not a word character. -/
def boundaryOk : Option Char → Bool
  | none => true
  | some p => !(isWordChar p)

/-- Worker for `russianWords`: `leftNb` is the character immediately before
the current (reversed) run of Cyrillic letters. -/
def russianWordsGo : Option Char → List Char → List Char → List (List Char)
  | leftNb, run, [] =>
    if 3 ≤ run.length ∧ boundaryOk leftNb then [run.reverse] else []
  | leftNb, run, c :: rest =>
    if isCyrWordChar c then russianWordsGo leftNb (c :: run) rest
    else
      (if 3 ≤ run.length ∧ boundaryOk leftNb ∧ !(isWordChar c)
       then [run.reverse] else []) ++ russianWordsGo (some c) [] rest

/-- Model of `re.findall(r'\b[А-Яа-яёЁ]{3,}\b', text)`: the maximal runs of
Cyrillic letters of length at least 3 whose neighbours on both sides are
word boundaries.  (A run bordered by a Latin letter, digit or underscore has
no `\b` there, and no shorter sub-run can match since the run's interior
characters are word characters.) -/
def russianWords (l : List Char) : List (List Char) := russianWordsGo none [] l

/-- Counts the characters satisfying the source's Russian-letter test
(`'а' <= c.lower() <= 'я' or c in 'ёе'`). -/
def cyrRatioCount (t : String) : Nat := t.data.countP isRusLetterForRatio

/-- Counts the characters satisfying `str.isalpha`. -/
def alphaCount (t : String) : Nat := t.data.countP pyIsAlphaChar

/-- The repeated-trigram test of `quick_text_quality_check`:
`any(word.count(word[i:i+3]) > 2 for i in range(len(word)-2))`. -/
def hasRepeatedTri (w : List Char) : Bool :=
  (List.range (w.length - 2)).any fun i => 2 < countOccur ((w.drop i).take 3) w

/-- Model of `quick_text_quality_check` (lines 1125–1152): the quality gate
an OCR ensemble run must pass to be eligible as an image's best result. -/
def quickTextQualityCheck (text : String) (confidence : ℚ) : Bool :=
  if text = ("") ∨ text.data.length < 10 then false
  else
    let rl := cyrRatioCount text
    let tl := alphaCount text
    if tl = 0 then false
    -- `if confidence < 50 and russian_ratio < 0.8: return False`
    else if confidence < 50 ∧ 10 * rl < 8 * tl then false
    -- `elif russian_ratio < 0.5: return False`
    else if 2 * rl < tl then false
    else
      let words := russianWords text.data
      if words.length < 2 then false
      else if words.any (fun w => decide (10 < w.length) && hasRepeatedTri w)
      then false
      else true

/-- Model of `is_meaningful_text` (lines 1154–1187): re-clean the text, then
require cleaned length at least 20 and at least one line that looks like
Russian text. -/
def isMeaningfulText (text : String) : Bool :=
  if text = ("") then false
  else
    let t := cleanOcrText text
    if t.data.length < 20 then false
    else
      let lines := (pySplit ('\n') t.data).filterMap fun l =>
        let s := pyStrip l
        if s = [] then none else some s
      if lines.length < 1 then false
      else
        let meaningful := lines.countP fun line =>
          if line.length < 5 then false
          else
            let rl := line.countP isRusLetterForRatio
            let words := russianWords line
            -- `russian_letters > 5 and len(russian_words) > 1 and
            --  russian_letters / total_chars > 0.4`
            decide (5 < rl) && decide (1 < words.length) &&
              decide (2 * line.length < 5 * rl)
        decide (1 ≤ meaningful)

/-! ## OCR ensemble (`try_multiple_ocr_methods`, lines 994–1043)

The external call `pytesseract.image_to_data` is abstracted as an oracle
from the method name to the token list the engine returns (`none` models a
failed preprocessing step or an engine exception, whose `except: continue`
skips the method).  Everything after that call is the source's own logic. -/

/-- One token of `pytesseract.image_to_data` output: its text and its
confidence (`none` models the `'-1'` sentinel the engine uses for
non-word boxes). -/
structure OcrToken where
  text : String
  conf : Option ℚ
deriving DecidableEq

/-- The three OCR configurations of the source, in order. -/
def ocrMethodNames : List String :=
  [("Tesseract_PSM6_rus+eng"), ("Tesseract_PSM3_rus+eng"),
   ("Tesseract_PSM11_rus+eng")]

/-- Model of `try_multiple_ocr_methods`: fold the three configurations,
keeping the highest-confidence run that passes `quick_text_quality_check`,
and return it only if its confidence clears
`settings['ocr_alternate_min_confidence'] = 35`. -/
def tryMultipleOcrMethods (oracle : String → Option (List OcrToken)) :
    Option (String × ℚ × String) :=
  let best := ocrMethodNames.foldl (fun best name =>
    match oracle name with
    | none => best
    | some toks =>
      -- keep stripped tokens of length > 1; confidences of kept tokens
      -- other than the '-1' sentinel
      let kept := toks.filterMap fun t =>
        let s := pyStripS t.text
        if 1 < s.data.length then some (s, t.conf) else none
      if kept.isEmpty then best
      else
        let textParts := kept.map (fun kv => kv.1)
        let confs := kept.filterMap (fun kv => kv.2)
        let text0 := pyStripS (joinSpace textParts)
        let avg : ℚ := if confs.isEmpty then 0 else confs.sum / (confs.length : ℚ)
        let text1 := cleanOcrText text0
        if text1 ≠ ("") ∧ best.2.1 < avg ∧ quickTextQualityCheck text1 avg = true
        then (text1, avg, name) else best) (("", (0 : ℚ), ("")))
  if best.1 ≠ ("") ∧ (35 : ℚ) < best.2.1 then some best else none

/-! ## Shape classification and the text-on-image detector
(`check_images_enhanced`, `shapes_overlap_improved`,
`check_images_with_multiple_ocr_methods`, lines 835–992) -/

/-- One entry of the `image_info` list built by `process_shape`
(`{'shape', 'id', 'index', 'width', 'height', 'format'}` — note: no
bounding-box keys).  `blobOk` models whether `shape.image.blob` can be read
without raising. -/
structure ImgInfo where
  id : Nat
  index : Nat
  width : Int
  height : Int
  format : String
  blobOk : Bool
deriving DecidableEq, Inhabited

/-- One entry of the `text_shapes` list built by `process_shape`
(with `left/top/width/height/right/bottom/text/char_count` keys). -/
structure TxtShape where
  left : Int
  top : Int
  width : Int
  height : Int
  text : String
  charCount : Nat
deriving DecidableEq, Inhabited

/-- A dictionary view of a shape record as read by
`shapes_overlap_improved`: each bounding-box key may be absent
(`none` models a `KeyError` on access). -/
structure BoxD where
  left : Option Int
  top : Option Int
  right : Option Int
  bottom : Option Int
deriving DecidableEq

/-- The dictionary view of a text-shape record (all box keys present). -/
def txtBox (t : TxtShape) : BoxD :=
  ⟨some t.left, some t.top, some (t.left + t.width), some (t.top + t.height)⟩

/-- The dictionary view of an image-info record: `image_info` entries carry
no `left/top/right/bottom` keys, so every box access raises `KeyError`. -/
def imgBox (_ : ImgInfo) : BoxD := ⟨none, none, none, none⟩

/-- Model of `shapes_overlap_improved` (lines 955–962): the strict
axis-aligned rectangle intersection test; any missing key raises `KeyError`,
which the bare `except` turns into `False`. -/
def shapesOverlapImproved (s1 s2 : BoxD) : Bool :=
  match s1.right, s2.left, s1.left, s2.right, s1.bottom, s2.top, s1.top,
      s2.bottom with
  | some r1, some l2, some l1, some r2, some b1, some t2, some t1, some b2 =>
    (!(r1 ≤ l2 || r2 ≤ l1)) && (!(b1 ≤ t2 || b2 ≤ t1))
  | _, _, _, _, _, _, _, _ => false

/-- A shape of the slide's shape tree as seen by `process_shape`: either a
group (recursed into; its own text/image attributes are never consulted) or
a leaf shape that may carry an image and/or a text frame. -/
structure ImgLeaf where
  width : Int
  height : Int
  fmt : String
  infoOk : Bool
  blobOk : Bool
deriving DecidableEq, Inhabited

structure TxtLeaf where
  left : Int
  top : Int
  width : Int
  height : Int
  text : String
  boxOk : Bool
deriving DecidableEq, Inhabited

inductive ShapeNode where
  | group (children : List ShapeNode)
  | leaf (img : Option ImgLeaf) (txt : Option TxtLeaf)
deriving Inhabited

/-- Traversal state of `process_shape`: the running image counter and the
two accumulated lists. -/
structure PSAcc where
  imageCount : Nat
  infos : List ImgInfo
  txts : List TxtShape
deriving DecidableEq, Inhabited

/-- The text-frame half of a leaf shape's processing: a shape with a
non-empty stripped text contributes a text record unless reading its
bounding box raises (`except: return`). -/
def handleTxt (acc : PSAcc) : Option TxtLeaf → PSAcc
  | none => acc
  | some t =>
    let s := pyStripS t.text
    if s = ("") then acc
    else if t.boxOk then
      { acc with txts := acc.txts ++
          [⟨t.left, t.top, t.width, t.height, s, s.data.length⟩] }
    else acc

/-- The leaf case of `process_shape`: an image shape always bumps the
counter; if building `img_info` raises, the handler `return`s, skipping the
text-frame half as well. -/
def processLeaf (acc : PSAcc) (img : Option ImgLeaf) (txt : Option TxtLeaf) :
    PSAcc :=
  match img with
  | some im =>
    let cnt := acc.imageCount + 1
    if im.infoOk then
      handleTxt
        { acc with
          imageCount := cnt
          infos := acc.infos ++ [⟨cnt, cnt, im.width, im.height, im.fmt, im.blobOk⟩] }
        txt
    else { acc with imageCount := cnt }
  | none => handleTxt acc txt

mutual
/-- Model of `process_shape` (lines 845–886): groups are flattened by
recursion, leaves are classified.  The Python `id(shape)` is modelled by the
image counter, which is unique per image. -/
def processShape (acc : PSAcc) : ShapeNode → PSAcc
  | .group cs => processShapeList acc cs
  | .leaf img txt => processLeaf acc img txt

/-- Folds `process_shape` over a list of shapes, left to right. -/
def processShapeList (acc : PSAcc) : List ShapeNode → PSAcc
  | [] => acc
  | s :: rest => processShapeList (processShape acc s) rest
end

/-- The full traversal of a slide's shape collection. -/
def processShapes (shapes : List ShapeNode) : PSAcc :=
  processShapeList ⟨0, [], []⟩ shapes

/-- The set of images the OCR loop actually processes: every image whose
recorded dimensions are at least 50 in both directions and whose bytes can
be read.  (`if shape.width < 50 or shape.height < 50: continue`, then
`image_data = shape.image.blob` under `except: continue`.) -/
def ocrAttempted (images : List ImgInfo) : List ImgInfo :=
  images.filter fun im =>
    !(decide (im.width < (50 : Int)) || decide (im.height < (50 : Int))) && im.blobOk

/-- Model of `check_images_with_multiple_ocr_methods` (lines 964–992): run
the ensemble over the slide's images in encounter order, skipping small or
unreadable ones; the oracle gives each image's per-method engine output. -/
def checkImagesWithMultipleOcrMethods (images : List ImgInfo)
    (oracle : Nat → String → Option (List OcrToken)) :
    List (Nat × String × ℚ × String × String) :=
  images.foldl (fun acc im =>
    if decide (im.width < (50 : Int)) || decide (im.height < (50 : Int)) then acc
    else if !im.blobOk then acc
    else
      match tryMultipleOcrMethods (oracle im.id) with
      | some (t, c, m) => acc ++ [(im.id, t, c, im.format, m)]
      | none => acc) []

/-- The OCR payload merged into the slide result (`ocr_data`). -/
structure OcrData where
  text : String
  confidence : ℚ
  method : String
  imageCount : Nat
  imagesWithText : Nat
deriving DecidableEq, Inhabited

/-- Merge state of the loop over `ocr_results.items()` in
`check_images_enhanced`. -/
structure MergeSt where
  combined : String
  totalConf : ℚ
  imagesWithText : Nat
  bestMethod : String
  bestConf : ℚ
deriving DecidableEq, Inhabited

/-- One step of the merge loop: an image contributes when its text is
meaningful and its confidence exceeds the secondary floor of 35. -/
def mergeStep (infos : List ImgInfo) (st : MergeSt)
    (entry : Nat × String × ℚ × String × String) : MergeSt :=
  let (imgId, text, conf, _fmt, method) := entry
  if isMeaningfulText text && decide ((35 : ℚ) < conf) then
    let info := (infos.find? (fun im => im.id = imgId)).getD default
    let divider :=
      (if st.combined ≠ ("") then ("\n\n") else ("")) ++
      ("--- Текст с изображения ") ++ toString info.index ++ (" (") ++
      toString info.width ++ ("x") ++ toString info.height ++ (") ---\n")
    { combined := st.combined ++ divider ++ text
      totalConf := st.totalConf + conf
      imagesWithText := st.imagesWithText + 1
      bestMethod := if st.bestConf < conf then method else st.bestMethod
      bestConf := if st.bestConf < conf then conf else st.bestConf }
  else st

/-- Model of `check_images_enhanced` (lines 835–953).  Returns
`(has_text_on_images, image count, ocr_data)`; the empty `ocr_data` dict,
which is falsy for the caller, is modelled as `none`.
`tesseractAvailable` models the module-level `TESSERACT_AVAILABLE` flag. -/
def checkImagesEnhanced (shapes : List ShapeNode) (tesseractAvailable : Bool)
    (oracle : Nat → String → Option (List OcrToken)) :
    Bool × Nat × Option OcrData :=
  let acc := processShapes shapes
  if acc.infos.isEmpty then (false, 0, none)
  else
    -- geometric pre-filter: text shapes with at least
    -- `settings['min_text_length_for_ocr'] = 3` characters
    let geomFlag := acc.txts.any fun t =>
      decide (3 ≤ t.charCount) &&
        acc.infos.any fun im => shapesOverlapImproved (txtBox t) (imgBox im)
    if tesseractAvailable && !acc.infos.isEmpty then
      let results := checkImagesWithMultipleOcrMethods acc.infos oracle
      let m := results.foldl (mergeStep acc.infos) ⟨(""), 0, 0, (""), 0⟩
      if m.combined ≠ ("") then
        (true, acc.infos.length,
         some { text := m.combined
                confidence :=
                  if 0 < m.imagesWithText then
                    m.totalConf / (m.imagesWithText : ℚ)
                  else 0
                method := if m.bestMethod ≠ ("") then m.bestMethod
                          else ("multiple")
                imageCount := acc.infos.length
                imagesWithText := m.imagesWithText })
      else (geomFlag, acc.infos.length, none)
    else (geomFlag, acc.infos.length, none)

/-! ## Background Inspector (`check_background_comprehensive`, lines 736–799)

The slide input is modelled by the data each of the three checks reads;
`Except.error ()` marks an access that raises.  Check 1 (the slide
background fill) runs with no inner handler, so an exception there reaches
the outer `except: return False`; checks 2 and 3 each sit inside their own
`try/except: pass`. -/

structure Rgb where
  r : Nat
  g : Nat
  b : Nat
deriving DecidableEq, Inhabited

/-- A resolved fill: its `fill.type` value and, when the fore colour exposes
an `rgb` attribute, that colour (`none` models `hasattr(..., 'rgb')` being
false). -/
structure FillInfo where
  ftype : Nat
  rgb : Option Rgb
deriving DecidableEq, Inhabited

/-- A shape as read by check 2: its area and its fill, when it has one
(`none` models `hasattr(shape, 'fill')` being false). -/
structure BgShape where
  area : ℚ
  fill : Option FillInfo
deriving DecidableEq, Inhabited

structure BgSlide where
  /-- Check-1 data: `Except.error ()` = accessing the slide background or
  its fill raises; `Except.ok none` = `slide.background` is falsy;
  otherwise the resolved fill. -/
  background : Except Unit (Option FillInfo)
  /-- Check-2 data: slide area, `Except.error ()` = computing it raises
  (the surrounding `except: pass` then skips check 2 entirely). -/
  slideArea : Except Unit ℚ
  /-- Check-2 data: the slide's shapes; a shape whose data raises is skipped
  (`except: continue`). -/
  shapes : List (Except Unit BgShape)
  /-- Check-3 data: the 6-digit hex colour tokens and `rgb(r,g,b)` triples
  found in the lowercased slide XML; `Except.error ()` = the scan raises. -/
  xmlColors : Except Unit (List String × List Rgb)

/-- Whether an explicit RGB colour is pure white. -/
def whiteRgb (c : Rgb) : Bool := c.r = 255 && c.g = 255 && c.b = 255

/-- Check 1 on a resolved background fill: a solid (`type == 1`) non-white
colour fails, any other type except "none" (`type == 0`) fails. -/
def fillFails (f : FillInfo) : Bool :=
  if f.ftype = 1 then
    match f.rgb with
    | some c => !whiteRgb c
    | none => false
  else decide (f.ftype ≠ 0)

/-- Check 2 on one large shape's fill: only a solid non-white fill fails
(no `elif` branch here, unlike check 1). -/
def bigShapeFillFails (f : FillInfo) : Bool :=
  f.ftype = 1 &&
    match f.rgb with
    | some c => !whiteRgb c
    | none => false

/-- Check 2: any shape covering more than
`settings['min_image_area_percentage'] = 0.7` of the slide with a solid
non-white fill; an error reading the slide area silences the whole check,
an error on one shape skips that shape. -/
def check2Fails (s : BgSlide) : Bool :=
  match s.slideArea with
  | .error _ => false
  | .ok area =>
    s.shapes.any fun sh =>
      match sh with
      | .error _ => false
      | .ok info =>
        decide (area * (7/10 : ℚ) < info.area) &&
          match info.fill with
          | some f => bigShapeFillFails f
          | none => false

/-- Check 3: any hex token other than `#ffffff` (or the dead
`#ffffff00` comparison) or any non-white `rgb()` triple fails; an error
scanning the XML silences the check. -/
def check3Fails (s : BgSlide) : Bool :=
  match s.xmlColors with
  | .error _ => false
  | .ok (hexes, rgbs) =>
    hexes.any (fun h => h ≠ ("#ffffff") && h ≠ ("#ffffff00")) ||
      rgbs.any (fun c => !whiteRgb c)

/-- Model of `check_background_comprehensive` (lines 736–799).  An exception
in check 1 reaches the outer `except: return False`, i.e. the inspector
reports a violation. -/
def checkBackgroundComprehensive (s : BgSlide) : Bool :=
  match s.background with
  | .error _ => false
  | .ok ob =>
    if (match ob with | some f => fillFails f | none => false) then false
    else if check2Fails s then false
    else if check3Fails s then false
    else true

/-- Whether one of the three checks actually found a colour violation on
data it could read (no failure-of-a-check counts). -/
def bgViolationFound (s : BgSlide) : Bool :=
  (match s.background with
   | .ok (some f) => fillFails f
   | _ => false) || check2Fails s || check3Fails s

/-! ## Slide rows and the orchestrator
(`analyze_slide` lines 675–734, `analyze_fonts` lines 1203–1235,
`analyze_selected_slides` lines 104–167,
`calculate_conformance_percentage` lines 169–379)

`analyze_slide` drives the per-slide inspectors over a real slide object;
its row construction is embedded over a record of the inspector outcomes
for that slide (`SlideData`), which also carries the slide's run fonts for
`collect_fonts` and its transition marker for
`check_presentation_transitions`. -/

/-- One row of the analyzer's `results` list (a `slide_result` dict).
Boolean fields model the `'✓'/'✗'` and `'Да'/'Нет'` cells. -/
structure Row where
  slideNum : Nat
  status : String
  violations : List String
  fontsOk : Bool
  textOk : Bool
  animsOk : Bool
  transitionsOk : Bool
  bgOk : Bool
  images : Nat
  textOnImg : Bool
  textDetail : String
  elements : Nat
  ocrText : String
  ocrConf : ℚ
  ocrMethod : String
  ocrImagesWithText : Nat
deriving DecidableEq, Inhabited

/-- The per-slide inspector outcomes consumed by `analyze_slide`'s row
construction, plus the slide's contribution to `collect_fonts` and to the
deck-level transition scan. -/
structure SlideData where
  bgOk : Bool
  textOverload : Bool
  charCount : Nat
  hasAnims : Bool
  textOnImages : Bool
  imageCount : Nat
  ocr : Option OcrData
  shapeCount : Nat
  fonts : List String
  transitionMarker : Bool
deriving DecidableEq, Inhabited

/-- The violation-tag list `analyze_slide` accumulates, in check order. -/
def slideViolations (d : SlideData) : List String :=
  let v1 : List String := if d.bgOk then [] else [("ФОН")]
  let v2 := if d.textOverload then
      v1 ++ [("ТЕКСТ(") ++ toString d.charCount ++ (")")] else v1
  let v3 := if d.hasAnims then v2 ++ [("АНИМАЦИИ")] else v2
  if d.textOnImages then v3 ++ [("ТЕКСТ_НА_ИЗОБР")] else v3

/-- Model of `analyze_slide` (lines 675–734): build the row, appending a
violation tag per failed check, and set the status to the comma-joined tags
when any exist. -/
def analyzeSlideRow (slideNum : Nat) (d : SlideData) : Row :=
  let v4 := slideViolations d
  { slideNum := slideNum
    status := if v4 = [] then ("OK") else joinTags v4
    violations := v4
    fontsOk := true
    textOk := !d.textOverload
    animsOk := !d.hasAnims
    transitionsOk := true
    bgOk := d.bgOk
    images := d.imageCount
    textOnImg := d.textOnImages
    textDetail := toString d.charCount ++ (" симв.")
    elements := d.shapeCount
    ocrText := match d.ocr with
      | some o => ⟨o.text.data.take 5000⟩  -- `[:max_ocr_text_length]`
      | none => ("")
    ocrConf := match d.ocr with | some o => o.confidence | none => 0
    ocrMethod := match d.ocr with | some o => o.method | none => ("")
    ocrImagesWithText := match d.ocr with
      | some o => o.imagesWithText
      | none => 0 }

/-- The system-font allowlist of `analyze_fonts`. -/
def systemFonts : List String :=
  [("+mj-lt"), ("+mn-lt"), ("calibri"), ("tahoma"), ("arial"),
   ("times"), ("verdana"), ("cambria"), ("segoe ui"), ("consolas"),
   ("courier new"), ("georgia"), ("impact"), ("trebuchet ms")]

/-- Whether `p` occurs as a contiguous substring of `s`
(Python `p in s`). -/
def containsSub (p : List Char) : List Char → Bool
  | [] => p.isEmpty
  | c :: rest => startsWith p (c :: rest) || containsSub p rest

/-- Whether a font name matches the allowlist (case-insensitive substring
match, as in `analyze_fonts`). -/
def isSystemFont (f : String) : Bool :=
  systemFonts.any fun sf => containsSub sf.data (pyLowerS f).data

/-- The distinct count of non-system fonts (`len(filtered_fonts)`); the
collected font set is kept duplicate-free, so filtering preserves
distinctness. -/
def filteredFontCount (usedFonts : List String) : Nat :=
  (usedFonts.filter (fun f => !isSystemFont f)).length

/-- The per-row patch of `analyze_fonts` (lines 1227–1232): when the
filtered count exceeds 2, mark the row and append a `ШРИФТЫ(n)` tag —
the guard tests for the literal tag `'ШРИФТЫ'`, which is never what gets
appended, so it only blocks rows already carrying that exact literal. -/
def fontPatchRow (fc : Nat) (r : Row) : Row :=
  if 2 < fc then
    if ("ШРИФТЫ") ∈ r.violations then { r with fontsOk := false }
    else
      let v := r.violations ++ [("ШРИФТЫ(") ++ toString fc ++ (")")]
      { r with fontsOk := false, violations := v, status := joinTags v }
  else r

/-- Model of the row-patching loop of `analyze_fonts` over the stored
results. -/
def fontPatch (fc : Nat) (rows : List Row) : List Row :=
  rows.map (fontPatchRow fc)

/-- Model of `collect_fonts` (lines 1189–1201) accumulating into the
`used_fonts` set: insertion keeps first occurrences and never duplicates. -/
def collectFonts (used : List String) (fonts : List String) : List String :=
  fonts.foldl (fun acc f => if f ∈ acc then acc else acc ++ [f]) used

/-- The `presentation_stats` dict. -/
structure Stats where
  hasAnimations : Bool
  hasTransitions : Bool
  fontsCount : Nat
  backgroundIssues : Nat
  textOnImages : Nat
  totalImages : Nat
  ocrUsed : Bool
  ocrTextFound : Nat
  totalOcrCharacters : Nat
  selectedSlidesCount : Nat
  selectedSlidesRange : String
  totalSlidesInPresentation : Nat
deriving DecidableEq, Inhabited

/-- The mutable per-instance state of `PresentationAnalyzer`: the
accumulated results list, the accumulated font set, and the recorded
effective range. -/
structure AnalyzerState where
  results : List Row
  usedFonts : List String
  selectedRange : String
deriving DecidableEq, Inhabited

/-- Python sequence indexing `l[i]` with negative-index wrap-around (used
for `prs.slides[i-1]`, which a parsed index of 0 turns into `slides[-1]`). -/
def pyIndex (l : List SlideData) (i : Int) : SlideData :=
  if i < 0 then l.getD (l.length + i).toNat default
  else l.getD i.toNat default

/-- Model of `analyze_selected_slides` (lines 104–167).  The deck is the
list of per-slide inspector outcomes.  Returns the new state together with
the returned `(results, stats)` pair; the empty-selection early return
(`return [], {}`) is `([], none)`. -/
def analyzeSelectedSlides (st : AnalyzerState) (deck : List SlideData)
    (slidesRange : String) : AnalyzerState × List Row × Option Stats :=
  let st0 := { st with selectedRange := slidesRange }
  let total := deck.length
  let parsed := parseSlidesRange slidesRange total
  let idxs := parsed.1
  let st1 := if parsed.2 then { st0 with selectedRange := ("all") } else st0
  if idxs.isEmpty then (st1, [], none)
  else
    let hasTrans := deck.any (·.transitionMarker)
    let slides := idxs.map fun i => pyIndex deck ((i : Int) - 1)
    let fresh := idxs.map fun i => analyzeSlideRow i (pyIndex deck ((i : Int) - 1))
    let fonts1 := slides.foldl (fun acc sd => collectFonts acc sd.fonts)
      st1.usedFonts
    let results1 := st1.results ++ fresh
    let fc := filteredFontCount fonts1
    let results2 := fontPatch fc results1
    let stats : Stats :=
      { hasAnimations := fresh.any fun r => !r.animsOk
        hasTransitions := hasTrans
        fontsCount := fonts1.length
        backgroundIssues := fresh.countP fun r => !r.bgOk
        textOnImages := fresh.countP (·.textOnImg)
        totalImages := (fresh.map (·.images)).sum
        ocrUsed := fresh.any fun r => r.ocrText ≠ ("")
        ocrTextFound := fresh.countP (·.textOnImg)
        totalOcrCharacters := (fresh.map fun r => r.ocrText.data.length).sum
        selectedSlidesCount := idxs.length
        selectedSlidesRange := slidesRange
        totalSlidesInPresentation := total }
    ({ st1 with results := results2, usedFonts := fonts1 }, results2, some stats)

/-! ## Conformance Scorer (`calculate_conformance_percentage`,
lines 169–379) -/

/-- The step function of the fonts criterion: `15` for at most 2 fonts,
`weights['fonts'] * 0.5` for 3, else `0`. -/
def fontsScore (fontsCount : Nat) : ℚ :=
  if fontsCount ≤ 2 then 15
  else if fontsCount ≤ 3 then 15 * (1/2 : ℚ)
  else 0

/-- A proportional criterion's score: `(N - issues) / N * weight`, full
weight when no slides were analyzed. -/
def propScore (totalSlides issues : Nat) (weight : ℚ) : ℚ :=
  if totalSlides = 0 then weight
  else ((totalSlides : ℚ) - (issues : ℚ)) / (totalSlides : ℚ) * weight

/-- The whole-slide compliance predicate (`is_compliant`). -/
def compliantRow (r : Row) : Bool :=
  r.bgOk && r.fontsOk && r.textOk && !r.textOnImg && r.animsOk

/-- Model of the percentage computed by `calculate_conformance_percentage`:
the seven weighted criterion scores are summed, scaled by
`achieved/total_possible*100` with `total_possible = 100`, and rounded to
one decimal. -/
def calculateConformancePercentage (results : List Row) (stats : Stats) : ℚ :=
  let totalSlides := results.length
  let backgroundScore := propScore totalSlides stats.backgroundIssues 15
  let fontsS := fontsScore stats.fontsCount
  let textIssues := results.countP fun r => !r.textOk
  let textScore := propScore totalSlides textIssues 10
  let imagesScore := propScore totalSlides stats.textOnImages 15
  let animIssues := results.countP fun r => !r.animsOk
  let animScore := propScore totalSlides animIssues 15
  let transitionScore : ℚ := if stats.hasTransitions then 0 else 10
  let compliantSlides := results.countP compliantRow
  let slideScore : ℚ :=
    if totalSlides = 0 then 20
    else (compliantSlides : ℚ) / (totalSlides : ℚ) * 20
  let achieved := backgroundScore + fontsS + textScore + imagesScore +
    animScore + transitionScore + slideScore
  pyRound1 (achieved / 100 * 100)

/-! ## Invariant predicates and projections used by the theorems -/

/-- The row invariant of the specification: the violation list is non-empty
iff the status differs from the `"OK"` sentinel, and a non-empty list is
reflected verbatim in the comma-joined status. -/
def rowInvariant (r : Row) : Prop :=
  (r.violations ≠ [] ↔ r.status ≠ ("OK")) ∧
  (r.violations ≠ [] → r.status = joinTags r.violations)

/-- Every violation tag the analyzer ever emits has at least 3 characters
(which keeps any comma-join of tags distinct from `"OK"`). -/
def tagsWf (r : Row) : Prop := ∀ t ∈ r.violations, 3 ≤ t.data.length

/-- The row fields that the deferred font patch never touches. -/
def rowCore (r : Row) :
    Nat × Bool × Bool × Bool × Nat × Bool × String × Nat :=
  (r.slideNum, r.bgOk, r.textOk, r.animsOk, r.images, r.textOnImg,
   r.ocrText, r.elements)

/-! ## Concrete inputs for the closed counterexample and witness theorems -/

/-- A slide on which every inspector passes. -/
def benignSlide : SlideData :=
  { bgOk := true, textOverload := false, charCount := 0, hasAnims := false,
    textOnImages := false, imageCount := 0, ocr := none, shapeCount := 0,
    fonts := [], transitionMarker := false }

/-- A deck-level stats record with no violations recorded. -/
def benignStats : Stats :=
  { hasAnimations := false, hasTransitions := false, fontsCount := 0,
    backgroundIssues := 0, textOnImages := 0, totalImages := 0,
    ocrUsed := false, ocrTextFound := 0, totalOcrCharacters := 0,
    selectedSlidesCount := 0, selectedSlidesRange := ("all"),
    totalSlidesInPresentation := 0 }

/-- A slide holding one readable 100×100 image and no text shape at all. -/
def c1Shapes : List ShapeNode :=
  [ShapeNode.leaf (some ⟨100, 100, ("png"), true, true⟩) none]

/-- An OCR oracle whose first configuration reads five high-confidence
Russian words off the image. -/
def c1Oracle : Nat → String → Option (List OcrToken) := fun _ m =>
  if m = ("Tesseract_PSM6_rus+eng") then
    some [⟨("привет"), some 90⟩, ⟨("мира"), some 88⟩, ⟨("как"), some 85⟩,
          ⟨("дела"), some 91⟩, ⟨("сегодня"), some 87⟩]
  else none

/-- A one-slide deck using two custom fonts plus the system font `Arial`. -/
def c3Deck : List SlideData :=
  [{ benignSlide with fonts := [("Foo"), ("Bar"), ("Arial")] }]

/-- A clean six-slide deck. -/
def c5Deck : List SlideData := List.replicate 6 benignSlide

/-- A slide whose background access raises while everything else is clean. -/
def c6Slide : BgSlide :=
  ⟨Except.error (), Except.ok 0, [], Except.ok ([], [])⟩

/-- A fully clean slide for the Background Inspector. -/
def c6WitSlide : BgSlide :=
  ⟨Except.ok none, Except.ok 0, [], Except.ok ([], [])⟩

/-- Seven readable 100×100 images. -/
def c7Images : List ImgInfo :=
  (List.range 7).map fun k => ⟨k + 1, k + 1, 100, 100, ("png"), true⟩

/-- An oracle reading two Russian words at confidence 90 off any image. -/
def c7Oracle : Nat → String → Option (List OcrToken) := fun _ m =>
  if m = ("Tesseract_PSM6_rus+eng") then
    some [⟨("мира"), some 90⟩, ⟨("труда"), some 90⟩]
  else none

/-- An oracle producing a run at confidence 60 whose Cyrillic-letter ratio
is 10/18, strictly between 0.5 and 0.6. -/
def c8Oracle : String → Option (List OcrToken) := fun m =>
  if m = ("Tesseract_PSM6_rus+eng") then
    some [⟨("привет"), some 60⟩, ⟨("мира"), some 60⟩, ⟨("abcdefgh"), some 60⟩]
  else none

/-- A pure-Russian text passing the quality gate at confidence 40. -/
def c8WitText : String := ("привет мира сегодня")

/-- A one-slide deck for the orchestrator-level witnesses. -/
def c10Deck : List SlideData := [benignSlide]

/-! ## Helper lemmas: status strings and the row invariant -/

theorem joinTags_length_ge (l : List String) (hl : l ≠ [])
    (hw : ∀ t ∈ l, 3 ≤ t.data.length) : 3 ≤ (joinTags l).data.length := by
  match l with
  | [t] => simpa using hw t (by simp)
  | t :: b :: rest =>
    have ht := hw t (by simp)
    simp only [joinTags, String.data_append, List.length_append]
    omega

theorem joinTags_ne_OK (l : List String) (hl : l ≠ [])
    (hw : ∀ t ∈ l, 3 ≤ t.data.length) : joinTags l ≠ ("OK") := by
  intro h
  have := joinTags_length_ge l hl hw
  rw [h] at this
  simp at this

theorem tag_append_length (pre suf : String) (n : Nat)
    (h : 3 ≤ pre.data.length) :
    3 ≤ (pre ++ toString n ++ suf).data.length := by
  simp only [String.data_append, List.length_append]
  omega

theorem slideViolations_wf (d : SlideData) :
    ∀ t ∈ slideViolations d, 3 ≤ t.data.length := by
  intro t ht
  have sub : ∀ (c : Bool) (l : List String) (tag : String),
      t ∈ (if c = true then l ++ [tag] else l) → t ∈ l ∨ t = tag := by
    intro c l tag h
    split at h
    · rcases List.mem_append.mp h with h | h
      · exact Or.inl h
      · exact Or.inr (List.mem_singleton.mp h)
    · exact Or.inl h
  unfold slideViolations at ht
  simp only [] at ht
  rcases sub _ _ _ ht with h3 | h4
  · rcases sub _ _ _ h3 with h2 | h
    · rcases sub _ _ _ h2 with h1 | h
      · split at h1
        · simp at h1
        · rw [List.mem_singleton.mp h1]; decide
      · rw [h]; exact tag_append_length ("ТЕКСТ(") (")") d.charCount (by decide)
    · rw [h]; decide
  · rw [h4]; decide

theorem analyzeSlideRow_violations (i : Nat) (d : SlideData) :
    (analyzeSlideRow i d).violations = slideViolations d := rfl

theorem analyzeSlideRow_invariant (i : Nat) (d : SlideData) :
    rowInvariant (analyzeSlideRow i d) ∧ tagsWf (analyzeSlideRow i d) := by
  have hwf := slideViolations_wf d
  have hstat : (analyzeSlideRow i d).status =
      (if slideViolations d = [] then ("OK") else joinTags (slideViolations d)) := rfl
  refine ⟨⟨?_, ?_⟩, ?_⟩
  · rw [analyzeSlideRow_violations, hstat]
    constructor
    · intro hne
      rw [if_neg hne]
      exact joinTags_ne_OK _ hne hwf
    · intro hne heq
      rw [heq, if_pos rfl] at hne
      exact hne rfl
  · intro hne
    rw [analyzeSlideRow_violations] at hne ⊢
    rw [hstat, if_neg hne]
  · intro t ht
    rw [analyzeSlideRow_violations] at ht
    exact hwf t ht

theorem fontPatchRow_invariant (fc : Nat) (r : Row) (hr : rowInvariant r)
    (hw : tagsWf r) :
    rowInvariant (fontPatchRow fc r) ∧ tagsWf (fontPatchRow fc r) := by
  unfold fontPatchRow
  split
  case isFalse => exact ⟨hr, hw⟩
  case isTrue hfc =>
    split
    case isTrue hmem =>
      exact ⟨hr, hw⟩
    case isFalse hmem =>
      have hwf' : ∀ t ∈ r.violations ++ [("ШРИФТЫ(") ++ toString fc ++ (")")],
          3 ≤ t.data.length := by
        intro t ht
        rcases List.mem_append.mp ht with h | h
        · exact hw t h
        · simp only [List.mem_singleton] at h
          exact h ▸ tag_append_length ("ШРИФТЫ(") (")") fc (by decide)
      have hne : r.violations ++ [("ШРИФТЫ(") ++ toString fc ++ (")")] ≠ [] := by
        simp
      refine ⟨⟨?_, ?_⟩, ?_⟩
      · simp only
        constructor
        · intro _
          exact joinTags_ne_OK _ hne hwf'
        · intro _
          exact hne
      · intro _
        rfl
      · exact hwf'

theorem fontPatchRow_core (fc : Nat) (r : Row) :
    rowCore (fontPatchRow fc r) = rowCore r := by
  unfold fontPatchRow
  split
  · split <;> rfl
  · rfl

/-! ## Claim C6 — Background Inspector error handling -/

/-- Claim C6 (as stated, refuted): on a slide where check 1 cannot complete
(accessing the slide background raises), the inspector's verdict is the
failing `false` although no check found an actual colour violation — the
failure itself makes the verdict fail, contradicting the claimed fail-open
behaviour of all three checks. -/
theorem C6_counterexample :
    checkBackgroundComprehensive c6Slide = false ∧
    bgViolationFound c6Slide = false :=
  ⟨rfl, rfl⟩

/-- Claim C6 (amended): the inspector never raises, and as long as the
slide-background access of check 1 succeeds, its verdict is `false` exactly
when one of the three checks found a real colour violation on data it could
read — in particular an internal error inside check 2 or check 3 is treated
as that check passing.  Only an error in check 1 escapes to the outer
handler and returns the failing verdict. -/
theorem C6_theorem (s : BgSlide) (ob : Option FillInfo)
    (h : s.background = Except.ok ob) :
    checkBackgroundComprehensive s = !(bgViolationFound s) := by
  unfold checkBackgroundComprehensive bgViolationFound
  rw [h]
  cases ob with
  | none =>
    cases hc2 : check2Fails s <;> cases hc3 : check3Fails s <;> simp
  | some f =>
    cases hf : fillFails f <;> cases hc2 : check2Fails s <;>
      cases hc3 : check3Fails s <;> simp [hf]

theorem C6_witness :
    checkBackgroundComprehensive c6WitSlide = !(bgViolationFound c6WitSlide) :=
  C6_theorem c6WitSlide none rfl

/-! ## Claim C8 — the OCR quality gate -/

/-- Claim C8 (as stated, refuted): the ensemble keeps (and here even
returns as the image's best result) a run of confidence 60 ≥ 50 whose
Cyrillic-letter ratio is 10/18 < 0.6 — the claimed thresholds 0.6/0.35 are
not the gate the code applies. -/
theorem C8_counterexample :
    tryMultipleOcrMethods c8Oracle =
      some (("привет мира abcdefgh"), 60, ("Tesseract_PSM6_rus+eng")) ∧
    (50 : ℚ) ≤ 60 ∧
    10 * cyrRatioCount ("привет мира abcdefgh") <
      6 * alphaCount ("привет мира abcdefgh") := by
  refine ⟨by decide, by norm_num, by decide⟩

/-- Claim C8 (amended): a run kept by `quick_text_quality_check` has text
length at least 10, at least one alphabetic character, Russian-letter ratio
at least 0.8 when its confidence is below 50 and at least 0.5 in any case,
and at least two Russian words of length 3 or more. -/
theorem C8_theorem (text : String) (conf : ℚ)
    (h : quickTextQualityCheck text conf = true) :
    10 ≤ text.data.length ∧ alphaCount text ≠ 0 ∧
    (conf < 50 → 8 * alphaCount text ≤ 10 * cyrRatioCount text) ∧
    alphaCount text ≤ 2 * cyrRatioCount text ∧
    2 ≤ (russianWords text.data).length := by
  unfold quickTextQualityCheck at h
  dsimp only at h
  split_ifs at h with h1 h2 h3 h4 h5 h6
  push_neg at h1
  refine ⟨h1.2, h2, ?_, by omega, by omega⟩
  intro hc
  rcases Decidable.not_and_iff_or_not.mp h3 with hx | hx
  · exact absurd hc hx
  · omega

theorem C8_witness :
    10 ≤ c8WitText.data.length ∧ alphaCount c8WitText ≠ 0 ∧
    ((40 : ℚ) < 50 → 8 * alphaCount c8WitText ≤ 10 * cyrRatioCount c8WitText) ∧
    alphaCount c8WitText ≤ 2 * cyrRatioCount c8WitText ∧
    2 ≤ (russianWords c8WitText.data).length :=
  C8_theorem c8WitText 40 (by decide)

/-! ## Claim C1 — the no-overlap path of the text-on-image detector -/

/-- The geometric pre-filter is inert: the overlap test always returns
`false` against an image record, because `image_info` entries carry no
bounding-box keys and the resulting `KeyError` is swallowed as `False`. -/
theorem shapesOverlap_img_dead (t : TxtShape) (im : ImgInfo) :
    shapesOverlapImproved (txtBox t) (imgBox im) = false := rfl

/-- The geometric flag of `check_images_enhanced` is therefore always
false. -/
theorem geomFlag_false (acc : PSAcc) :
    (acc.txts.any fun t => decide (3 ≤ t.charCount) &&
      acc.infos.any fun im => shapesOverlapImproved (txtBox t) (imgBox im))
      = false := by
  rw [List.any_eq_false]
  intro t _
  simp only [Bool.and_eq_true, List.any_eq_true]
  rintro ⟨-, im, -, hov⟩
  rw [shapesOverlap_img_dead] at hov
  exact Bool.false_ne_true hov

/-- Claim C1 (as stated, refuted): a slide with one image and no text shape
at all — so certainly no text-bearing bounding box overlapping any image —
still runs OCR when the engine is available, reports text-on-image = true
from the OCR findings alone, and returns an OCR payload. -/
theorem C1_counterexample :
    (processShapes c1Shapes).txts = [] ∧
    (checkImagesEnhanced c1Shapes true c1Oracle).1 = true ∧
    (checkImagesEnhanced c1Shapes true c1Oracle).2.2 ≠ none := by
  refine ⟨by decide, by decide, by decide⟩

/-- Claim C1 (amended): the detector reports false with the correct image
count and no OCR payload for every slide exactly when the OCR engine is
unavailable; the geometric overlap signal never fires (the overlap test is
constantly false against image records), so whenever the engine is
available the OCR ensemble runs regardless of overlap and its meaningful
findings alone decide the verdict. -/
theorem C1_theorem (shapes : List ShapeNode)
    (oracle : Nat → String → Option (List OcrToken)) :
    checkImagesEnhanced shapes false oracle =
      (false, (processShapes shapes).infos.length, none) ∧
    ∀ (t : TxtShape) (im : ImgInfo),
      shapesOverlapImproved (txtBox t) (imgBox im) = false := by
  refine ⟨?_, fun t im => rfl⟩
  unfold checkImagesEnhanced
  dsimp only
  by_cases h : (processShapes shapes).infos.isEmpty = true
  · rw [if_pos h]
    have : (processShapes shapes).infos = [] := by
      simpa using h
    rw [this]
    rfl
  · rw [if_neg h, if_neg (by simp), geomFlag_false]

/-! ## Claim C7 — which images the OCR loop processes -/

/-- Claim C7 (as stated, refuted): a slide with seven readable 100×100
images has all seven OCR-processed — there is no cap of 6 anywhere in the
loop. -/
theorem C7_counterexample :
    (checkImagesWithMultipleOcrMethods c7Images c7Oracle).length = 7 ∧
    (ocrAttempted c7Images).length = 7 := by
  refine ⟨by decide, by decide⟩

/-- Claim C7 (amended): the OCR loop processes exactly the images of the
slide whose recorded dimensions are at least 50×50 and whose bytes are
readable, in encounter order and without any cap — the processed results
are the ensemble outputs over the size-and-readability filter of the image
list, which is an order-preserving sublist of it. -/
theorem C7_theorem (images : List ImgInfo)
    (oracle : Nat → String → Option (List OcrToken)) :
    checkImagesWithMultipleOcrMethods images oracle =
      (ocrAttempted images).filterMap (fun im =>
        (tryMultipleOcrMethods (oracle im.id)).map
          (fun b => (im.id, b.1, b.2.1, im.format, b.2.2))) ∧
    (ocrAttempted images).Sublist images := by
  refine ⟨?_, List.filter_sublist _⟩
  have key : ∀ (l : List ImgInfo)
      (acc : List (Nat × String × ℚ × String × String)),
      l.foldl (fun acc im =>
        if decide (im.width < (50 : Int)) || decide (im.height < (50 : Int))
        then acc
        else if !im.blobOk then acc
        else
          match tryMultipleOcrMethods (oracle im.id) with
          | some (t, c, m) => acc ++ [(im.id, t, c, im.format, m)]
          | none => acc) acc =
      acc ++ (l.filter fun im =>
          !(decide (im.width < (50 : Int)) ||
            decide (im.height < (50 : Int))) && im.blobOk).filterMap
        (fun im => (tryMultipleOcrMethods (oracle im.id)).map
          (fun b => (im.id, b.1, b.2.1, im.format, b.2.2))) := by
    intro l
    induction l with
    | nil => intro acc; simp
    | cons im rest ih =>
      intro acc
      simp only [List.foldl_cons, List.filter_cons]
      by_cases hsz : (decide (im.width < (50 : Int)) ||
          decide (im.height < (50 : Int))) = true
      · have hcond : (!(decide (im.width < (50 : Int)) ||
            decide (im.height < (50 : Int))) && im.blobOk) = false := by
          rw [hsz]; rfl
        rw [if_pos hsz, hcond, if_neg (by simp)]
        exact ih acc
      · have hszf : (decide (im.width < (50 : Int)) ||
            decide (im.height < (50 : Int))) = false :=
          Bool.eq_false_iff.mpr hsz
        rw [if_neg hsz]
        by_cases hb : im.blobOk = true
        · have hcond : (!(decide (im.width < (50 : Int)) ||
              decide (im.height < (50 : Int))) && im.blobOk) = true := by
            rw [hszf, hb]; rfl
          rw [if_neg (by simp [hb]), hcond, if_pos rfl,
            List.filterMap_cons]
          cases htr : tryMultipleOcrMethods (oracle im.id) with
          | none =>
            simp only [htr, Option.map_none']
            exact ih acc
          | some b =>
            obtain ⟨t, c, m⟩ := b
            simp only [htr, Option.map_some']
            rw [ih]
            simp
        · have hnbf : im.blobOk = false := Bool.eq_false_iff.mpr hb
          have hcond : (!(decide (im.width < (50 : Int)) ||
              decide (im.height < (50 : Int))) && im.blobOk) = false := by
            rw [hnbf]; simp
          rw [if_pos (by simp [hnbf]), hcond, if_neg (by simp)]
          exact ih acc
  have h0 := key images []
  rw [List.nil_append] at h0
  exact h0

/-! ## Claim C2 — the conformance percentage -/

theorem pyRound1_bounds {q : ℚ} (h0 : 0 ≤ q) (h1 : q ≤ 100) :
    0 ≤ pyRound1 q ∧ pyRound1 q ≤ 100 := by
  unfold pyRound1
  dsimp only
  have hx0 : (0 : ℚ) ≤ 10 * q := by linarith
  have hx1 : 10 * q ≤ 1000 := by linarith
  have hn0 : (0 : ℤ) ≤ ⌊10 * q⌋ := Int.floor_nonneg.mpr hx0
  have hle : ((⌊10 * q⌋ : ℤ) : ℚ) ≤ 10 * q := Int.floor_le _
  have hn1 : ⌊10 * q⌋ ≤ 1000 := by
    have h := Int.floor_le_floor (α := ℚ) hx1
    simpa using h
  have bn : ∀ k : ℤ, 0 ≤ k → k ≤ 1000 →
      0 ≤ (k : ℚ) / 10 ∧ (k : ℚ) / 10 ≤ 100 := by
    intro k hk0 hk1
    constructor
    · apply div_nonneg _ (by norm_num)
      exact_mod_cast hk0
    · rw [div_le_iff₀ (by norm_num : (0 : ℚ) < 10)]
      have : (k : ℚ) ≤ 1000 := by exact_mod_cast hk1
      linarith
  have succCase : ¬(10 * q - ⌊10 * q⌋ < 1 / 2) → ⌊10 * q⌋ + 1 ≤ 1000 := by
    intro hr
    have hhalf : (1 : ℚ) / 2 ≤ 10 * q - ⌊10 * q⌋ := le_of_not_lt hr
    have hlt1000 : ⌊10 * q⌋ < 1000 := by
      by_contra hcon
      push_neg at hcon
      have : (1000 : ℚ) ≤ ((⌊10 * q⌋ : ℤ) : ℚ) := by exact_mod_cast hcon
      linarith
    omega
  split_ifs with hr1 hr2 hpar
  · exact bn _ hn0 hn1
  · exact bn _ (by omega) (succCase hr1)
  · exact bn _ hn0 hn1
  · exact bn _ (by omega) (succCase hr1)

theorem divMulW_bounds {c n : Nat} (hc : c ≤ n) (hn : ¬(n = 0)) {w : ℚ}
    (hw : 0 ≤ w) :
    0 ≤ (c : ℚ) / (n : ℚ) * w ∧ (c : ℚ) / (n : ℚ) * w ≤ w := by
  have hnq : (0 : ℚ) < n := by exact_mod_cast Nat.pos_of_ne_zero hn
  have hcq : (0 : ℚ) ≤ c := by positivity
  have hle1 : (c : ℚ) / n ≤ 1 := by
    rw [div_le_one hnq]
    exact_mod_cast hc
  constructor
  · exact mul_nonneg (div_nonneg hcq hnq.le) hw
  · calc (c : ℚ) / n * w ≤ 1 * w := mul_le_mul_of_nonneg_right hle1 hw
      _ = w := one_mul w

theorem propScore_bounds {n i : Nat} (h : i ≤ n) {w : ℚ} (hw : 0 ≤ w) :
    0 ≤ propScore n i w ∧ propScore n i w ≤ w := by
  unfold propScore
  split_ifs with h0
  · exact ⟨hw, le_refl w⟩
  · have hcast : ((n : ℚ) - (i : ℚ)) = ((n - i : Nat) : ℚ) :=
      (Nat.cast_sub h).symm
    rw [hcast]
    exact divMulW_bounds (Nat.sub_le n i) h0 hw

theorem fontsScore_bounds (fc : Nat) :
    0 ≤ fontsScore fc ∧ fontsScore fc ≤ 15 := by
  unfold fontsScore
  split_ifs <;> norm_num

/-- Claim C2 (confirmed): given deck statistics whose violation counters do
not exceed the analyzed-slide count, the conformance percentage is the sum
of the seven criterion scores rounded to one decimal — background, fonts,
text-overload, text-on-image, animations, transitions and whole-slide
compliance weighted 15/15/10/15/15/10/20, the proportional criteria scoring
`(N - violations)/N × weight` with full weight when `N = 0`, fonts stepping
15 / 7.5 / 0 and transitions all-or-nothing — and the result lies in
`[0, 100]`. -/
theorem C2_theorem (results : List Row) (stats : Stats)
    (hb : stats.backgroundIssues ≤ results.length)
    (ht : stats.textOnImages ≤ results.length) :
    calculateConformancePercentage results stats =
      pyRound1
        ((if results.length = 0 then (15 : ℚ)
          else ((results.length : ℚ) - (stats.backgroundIssues : ℚ)) /
            (results.length : ℚ) * 15) +
         (if stats.fontsCount ≤ 2 then (15 : ℚ)
          else if stats.fontsCount ≤ 3 then 15 / 2 else 0) +
         (if results.length = 0 then (10 : ℚ)
          else ((results.length : ℚ) -
              ((results.countP fun r => !r.textOk) : ℚ)) /
            (results.length : ℚ) * 10) +
         (if results.length = 0 then (15 : ℚ)
          else ((results.length : ℚ) - (stats.textOnImages : ℚ)) /
            (results.length : ℚ) * 15) +
         (if results.length = 0 then (15 : ℚ)
          else ((results.length : ℚ) -
              ((results.countP fun r => !r.animsOk) : ℚ)) /
            (results.length : ℚ) * 15) +
         (if stats.hasTransitions then (0 : ℚ) else 10) +
         (if results.length = 0 then (20 : ℚ)
          else ((results.countP compliantRow : Nat) : ℚ) /
            (results.length : ℚ) * 20)) ∧
    0 ≤ calculateConformancePercentage results stats ∧
    calculateConformancePercentage results stats ≤ 100 := by
  have hA : calculateConformancePercentage results stats =
      pyRound1 (propScore results.length stats.backgroundIssues 15 +
        fontsScore stats.fontsCount +
        propScore results.length (results.countP fun r => !r.textOk) 10 +
        propScore results.length stats.textOnImages 15 +
        propScore results.length (results.countP fun r => !r.animsOk) 15 +
        (if stats.hasTransitions then (0 : ℚ) else 10) +
        (if results.length = 0 then (20 : ℚ)
         else ((results.countP compliantRow : Nat) : ℚ) /
           (results.length : ℚ) * 20)) := by
    unfold calculateConformancePercentage
    dsimp only
    rw [div_mul_cancel₀ _ (by norm_num : (100 : ℚ) ≠ 0)]
  have hsl : 0 ≤ (if results.length = 0 then (20 : ℚ)
      else ((results.countP compliantRow : Nat) : ℚ) /
        (results.length : ℚ) * 20) ∧
      (if results.length = 0 then (20 : ℚ)
      else ((results.countP compliantRow : Nat) : ℚ) /
        (results.length : ℚ) * 20) ≤ 20 := by
    split_ifs with h0
    · norm_num
    · exact divMulW_bounds (List.countP_le_length _) h0 (by norm_num)
  have htr : 0 ≤ (if stats.hasTransitions then (0 : ℚ) else 10) ∧
      (if stats.hasTransitions then (0 : ℚ) else 10) ≤ 10 := by
    split_ifs <;> norm_num
  have h1 := propScore_bounds hb (by norm_num : (0 : ℚ) ≤ 15)
  have h2 := fontsScore_bounds stats.fontsCount
  have h3 := propScore_bounds (List.countP_le_length
    (fun r => !r.textOk) (l := results)) (by norm_num : (0 : ℚ) ≤ 10)
  have h4 := propScore_bounds ht (by norm_num : (0 : ℚ) ≤ 15)
  have h5 := propScore_bounds (List.countP_le_length
    (fun r => !r.animsOk) (l := results)) (by norm_num : (0 : ℚ) ≤ 15)
  have hs0 : 0 ≤ propScore results.length stats.backgroundIssues 15 +
      fontsScore stats.fontsCount +
      propScore results.length (results.countP fun r => !r.textOk) 10 +
      propScore results.length stats.textOnImages 15 +
      propScore results.length (results.countP fun r => !r.animsOk) 15 +
      (if stats.hasTransitions then (0 : ℚ) else 10) +
      (if results.length = 0 then (20 : ℚ)
       else ((results.countP compliantRow : Nat) : ℚ) /
         (results.length : ℚ) * 20) := by
    have := h1.1; have := h2.1; have := h3.1; have := h4.1; have := h5.1
    have := htr.1; have := hsl.1
    linarith
  have hs100 : propScore results.length stats.backgroundIssues 15 +
      fontsScore stats.fontsCount +
      propScore results.length (results.countP fun r => !r.textOk) 10 +
      propScore results.length stats.textOnImages 15 +
      propScore results.length (results.countP fun r => !r.animsOk) 15 +
      (if stats.hasTransitions then (0 : ℚ) else 10) +
      (if results.length = 0 then (20 : ℚ)
       else ((results.countP compliantRow : Nat) : ℚ) /
         (results.length : ℚ) * 20) ≤ 100 := by
    have := h1.2; have := h2.2; have := h3.2; have := h4.2; have := h5.2
    have := htr.2; have := hsl.2
    linarith
  refine ⟨?_, ?_, ?_⟩
  · exact hA.trans (by rfl)
  · rw [hA]
    exact (pyRound1_bounds hs0 hs100).1
  · rw [hA]
    exact (pyRound1_bounds hs0 hs100).2

theorem C2_witness :
    calculateConformancePercentage [] benignStats =
      pyRound1
        ((if ([] : List Row).length = 0 then (15 : ℚ)
          else ((([] : List Row).length : ℚ) -
              (benignStats.backgroundIssues : ℚ)) /
            (([] : List Row).length : ℚ) * 15) +
         (if benignStats.fontsCount ≤ 2 then (15 : ℚ)
          else if benignStats.fontsCount ≤ 3 then 15 / 2 else 0) +
         (if ([] : List Row).length = 0 then (10 : ℚ)
          else ((([] : List Row).length : ℚ) -
              ((([] : List Row).countP fun r => !r.textOk) : ℚ)) /
            (([] : List Row).length : ℚ) * 10) +
         (if ([] : List Row).length = 0 then (15 : ℚ)
          else ((([] : List Row).length : ℚ) -
              (benignStats.textOnImages : ℚ)) /
            (([] : List Row).length : ℚ) * 15) +
         (if ([] : List Row).length = 0 then (15 : ℚ)
          else ((([] : List Row).length : ℚ) -
              ((([] : List Row).countP fun r => !r.animsOk) : ℚ)) /
            (([] : List Row).length : ℚ) * 15) +
         (if benignStats.hasTransitions then (0 : ℚ) else 10) +
         (if ([] : List Row).length = 0 then (20 : ℚ)
          else ((([] : List Row).countP compliantRow : Nat) : ℚ) /
            (([] : List Row).length : ℚ) * 20)) ∧
    0 ≤ calculateConformancePercentage [] benignStats ∧
    calculateConformancePercentage [] benignStats ≤ 100 :=
  C2_theorem [] benignStats (by decide) (by decide)

/-! ## Claim C3 — fonts: score versus per-row tagging -/

/-- Claim C3 (as stated, refuted): a run whose deck uses exactly 2 distinct
non-system fonts (`Foo`, `Bar`) plus the system font `Arial` produces no
per-row font violation, yet the fonts score is 7.5, not 15 — the score is
driven by the unfiltered `len(used_fonts) = 3`, not by the filtered
count 2. -/
theorem C3_counterexample :
    filteredFontCount
      ((analyzeSelectedSlides ⟨[], [], ("all")⟩ c3Deck ("all")).1.usedFonts)
      = 2 ∧
    ((analyzeSelectedSlides ⟨[], [], ("all")⟩ c3Deck ("all")).2.1.all
      (·.fontsOk)) = true ∧
    ((analyzeSelectedSlides ⟨[], [], ("all")⟩ c3Deck ("all")).2.2.map
      fun s => s.fontsCount) = some 3 ∧
    fontsScore 3 = 15 / 2 ∧ ((15 : ℚ) / 2) ≠ 15 := by
  refine ⟨by decide, by decide, by decide, by decide, by decide⟩

/-- Claim C3 (amended): the per-row tagging is driven by the filtered
distinct non-system font count — at most 2 leaves every row untouched and
exactly 3 marks every row (without a prior literal `ШРИФТЫ` tag) with
`ШРИФТЫ(3)` — while the fonts score is the step function of the
*unfiltered* distinct font count recorded by the orchestrator in
`stats.fonts_count = len(used_fonts)`: 15 when at most 2, 7.5 when 3, 0
otherwise.  The two counts agree only when no system font was collected. -/
theorem C3_theorem (fonts : List String) (rows : List Row)
    (hrows : ∀ r ∈ rows, ("ШРИФТЫ") ∉ r.violations) :
    (filteredFontCount fonts ≤ 2 →
      fontPatch (filteredFontCount fonts) rows = rows) ∧
    (filteredFontCount fonts = 3 →
      fontPatch (filteredFontCount fonts) rows = rows.map fun r =>
        { r with fontsOk := false,
                 violations := r.violations ++ [("ШРИФТЫ(3)")],
                 status := joinTags (r.violations ++ [("ШРИФТЫ(3)")]) }) ∧
    ∀ (st : AnalyzerState) (deck : List SlideData) (rangeStr : String)
      (s : Stats), (analyzeSelectedSlides st deck rangeStr).2.2 = some s →
      s.fontsCount =
        ((analyzeSelectedSlides st deck rangeStr).1.usedFonts).length ∧
      fontsScore s.fontsCount =
        (if s.fontsCount ≤ 2 then (15 : ℚ)
         else if s.fontsCount ≤ 3 then 15 / 2 else 0) := by
  refine ⟨?_, ?_, ?_⟩
  · intro hfc
    unfold fontPatch
    have h : ∀ r ∈ rows, fontPatchRow (filteredFontCount fonts) r = r := by
      intro r _
      unfold fontPatchRow
      rw [if_neg (by omega)]
    rw [List.map_congr_left h]
    exact List.map_id' rows
  · intro hfc
    unfold fontPatch
    apply List.map_congr_left
    intro r hr
    unfold fontPatchRow
    rw [hfc, if_pos (by omega), if_neg (hrows r hr)]
    have htag : ("ШРИФТЫ(") ++ toString (3 : Nat) ++ (")") =
        ("ШРИФТЫ(3)") := by decide
    rw [htag]
  · intro st deck rangeStr s hs
    refine ⟨?_, rfl⟩
    unfold analyzeSelectedSlides at hs ⊢
    dsimp only at hs ⊢
    split_ifs at hs ⊢ <;>
      obtain rfl := Option.some.inj hs <;> rfl

theorem C3_witness :
    (filteredFontCount [("Foo"), ("Bar"), ("Arial")] ≤ 2 →
      fontPatch (filteredFontCount [("Foo"), ("Bar"), ("Arial")])
        [analyzeSlideRow 1 benignSlide] = [analyzeSlideRow 1 benignSlide]) ∧
    (filteredFontCount [("Foo"), ("Bar"), ("Arial")] = 3 →
      fontPatch (filteredFontCount [("Foo"), ("Bar"), ("Arial")])
        [analyzeSlideRow 1 benignSlide] =
        [analyzeSlideRow 1 benignSlide].map fun r =>
          { r with fontsOk := false,
                   violations := r.violations ++ [("ШРИФТЫ(3)")],
                   status := joinTags (r.violations ++ [("ШРИФТЫ(3)")]) }) ∧
    ∀ (st : AnalyzerState) (deck : List SlideData) (rangeStr : String)
      (s : Stats), (analyzeSelectedSlides st deck rangeStr).2.2 = some s →
      s.fontsCount =
        ((analyzeSelectedSlides st deck rangeStr).1.usedFonts).length ∧
      fontsScore s.fontsCount =
        (if s.fontsCount ≤ 2 then (15 : ℚ)
         else if s.fontsCount ≤ 3 then 15 / 2 else 0) :=
  C3_theorem [("Foo"), ("Bar"), ("Arial")] [analyzeSlideRow 1 benignSlide]
    (by decide)

/-! ## Claim C4 — shape of the Range Selector output -/

theorem pySplit_chars (sep : Char) (l : List Char) :
    ∀ part ∈ pySplit sep l, ∀ c ∈ part, c ∈ l := by
  induction l with
  | nil =>
    intro part hp c hc
    simp only [pySplit, List.mem_singleton] at hp
    subst hp
    simp at hc
  | cons a rest ih =>
    intro part hp c hc
    simp only [pySplit] at hp
    rw [List.mem_cons]
    split at hp
    · rcases List.mem_cons.mp hp with h | h
      · rw [h] at hc; simp at hc
      · exact Or.inr (ih part h c hc)
    · rcases hmatch : pySplit sep rest with _ | ⟨h0, t⟩
      · rw [hmatch] at hp
        simp only [List.mem_singleton] at hp
        rw [hp, List.mem_singleton] at hc
        exact Or.inl hc
      · rw [hmatch] at hp
        rcases List.mem_cons.mp hp with h | h
        · rw [h, List.mem_cons] at hc
          rcases hc with hc | hc
          · exact Or.inl hc
          · refine Or.inr (ih h0 ?_ c hc)
            rw [hmatch]; exact List.mem_cons_self h0 t
        · refine Or.inr (ih part ?_ c hc)
          rw [hmatch]; exact List.mem_cons_of_mem h0 h

theorem pyStrip_subset (l : List Char) : ∀ c ∈ pyStrip l, c ∈ l := by
  intro c hc
  unfold pyStrip at hc
  rw [List.mem_reverse] at hc
  have h1 : c ∈ (l.dropWhile isPyWs).reverse :=
    (List.dropWhile_sublist _).subset hc
  rw [List.mem_reverse] at h1
  exact (List.dropWhile_sublist _).subset h1

theorem pyIsDigit_false_of_noDigit {l src : List Char}
    (hsub : ∀ c ∈ l, c ∈ src) (h : ∀ c ∈ src, isDigitChar c = false) :
    pyIsDigit l = false := by
  unfold pyIsDigit
  cases l with
  | nil => rfl
  | cons c rest =>
    have hc : isDigitChar c = false := h c (hsub c (List.mem_cons_self c rest))
    simp only [List.isEmpty_cons, Bool.not_false, Bool.true_and]
    rw [List.all_eq_false]
    exact ⟨c, List.mem_cons_self c rest, by simp [hc]⟩

theorem mem_range'_le {x a m : Nat} (h : x ∈ List.range' a (m + 1 - a)) :
    x ≤ m := by
  have := List.mem_range'_1.mp h
  omega

theorem commaPartAdd_le (total : Nat) (acc : List Nat) (part : List Char)
    (h : ∀ x ∈ acc, x ≤ total) :
    ∀ x ∈ commaPartAdd total acc part, x ≤ total := by
  intro x hx
  unfold commaPartAdd at hx
  split at hx
  · split at hx
    · split at hx
      · rcases List.mem_append.mp hx with hm | hm
        · exact h x hm
        · exact le_trans (mem_range'_le hm) (min_le_right _ _)
      · exact h x hx
    · exact h x hx
  · split at hx
    · dsimp only at hx
      split at hx
      case isTrue hn =>
        rcases List.mem_append.mp hx with hm | hm
        · exact h x hm
        · rw [List.mem_singleton] at hm
          subst hm
          exact hn.2
      case isFalse => exact h x hx
    · exact h x hx

theorem rawSelection_le (total : Nat) (sr : List Char) :
    ∀ x ∈ rawSelection total sr, x ≤ total := by
  unfold rawSelection
  split
  · have key : ∀ (parts : List (List Char)) (acc : List Nat),
        (∀ x ∈ acc, x ≤ total) →
        ∀ x ∈ parts.foldl (commaPartAdd total) acc, x ≤ total := by
      intro parts
      induction parts with
      | nil => intro acc hacc x hx; exact hacc x hx
      | cons part rest ih =>
        intro acc hacc x hx
        rw [List.foldl_cons] at hx
        exact ih _ (commaPartAdd_le total acc part hacc) x hx
    exact key _ [] (by simp)
  · split
    · split
      · split
        · intro x hx
          exact le_trans (mem_range'_le hx) (min_le_right _ _)
        · intro x hx; simp at hx
      · intro x hx; simp at hx
    · intro x hx; simp at hx

theorem commaPartAdd_noDigit (total : Nat) (acc : List Nat)
    (part : List Char) (h : ∀ c ∈ part, isDigitChar c = false) :
    commaPartAdd total acc part = acc := by
  unfold commaPartAdd
  split
  · split
    case h_1 a b heq =>
      have ha : pyIsDigit a = false := by
        refine pyIsDigit_false_of_noDigit ?_ h
        intro c hc
        refine pySplit_chars ('-') part a ?_ c hc
        rw [heq]; exact List.mem_cons_self a [b]
      rw [if_neg]
      intro hcon
      rw [hcon.1] at ha
      simp at ha
    case h_2 => rfl
  · have hp : pyIsDigit part = false :=
      pyIsDigit_false_of_noDigit (fun c hc => hc) h
    rw [if_neg (by simp [hp])]

theorem rawSelection_noDigit (total : Nat) (sr : List Char)
    (h : ∀ c ∈ sr, isDigitChar c = false) :
    rawSelection total sr = [] := by
  unfold rawSelection
  split
  · have key : ∀ (parts : List (List Char)),
        (∀ part ∈ parts, ∀ c ∈ part, c ∈ sr) →
        parts.foldl (commaPartAdd total) [] = [] := by
      intro parts
      induction parts with
      | nil => intro _; rfl
      | cons part rest ih =>
        intro hparts
        rw [List.foldl_cons,
          commaPartAdd_noDigit total [] part
            (fun c hc => h c (hparts part (List.mem_cons_self _ _) c hc))]
        exact ih fun p hp c hc =>
          hparts p (List.mem_cons_of_mem part hp) c hc
    exact key _ (pySplit_chars (',') sr)
  · split
    · split
      case h_1 a b heq =>
        have ha : pyIsDigit a = false := by
          refine pyIsDigit_false_of_noDigit ?_ h
          intro c hc
          refine pySplit_chars ('-') sr a ?_ c hc
          rw [heq]; exact List.mem_cons_self a [b]
        rw [if_neg]
        intro hcon
        rw [hcon.1] at ha
        simp at ha
      case h_2 => rfl
    · rfl

theorem sorted_lt_range' (a n : Nat) :
    List.Sorted (· < ·) (List.range' a n) := by
  cases n with
  | zero => simp
  | succ m =>
    rw [List.range'_succ]
    have h := @List.chain_lt_range' a m 1 (by norm_num)
    have h' : List.Chain' (· < ·) (a :: List.range' (a + 1) m) := h
    exact List.chain'_iff_pairwise.mp h'

theorem sorted_lt_sortDedup (acc : List Nat) :
    List.Sorted (· < ·) (List.insertionSort (· ≤ ·) acc.dedup) := by
  have hs : List.Sorted (· ≤ ·) (List.insertionSort (· ≤ ·) acc.dedup) :=
    List.sorted_insertionSort _ _
  have hn : (List.insertionSort (· ≤ ·) acc.dedup).Nodup :=
    (List.perm_insertionSort _ _).nodup_iff.mpr (List.nodup_dedup acc)
  exact (hs.and hn).imp fun h => lt_of_le_of_ne h.1 h.2

/-- Claim C4 (as stated, refuted): the selection `"0-2"` on a 6-slide deck
parses to `[0, 1, 2]` — the output contains the index 0, which is outside
`[1, 6]`, because sub-range starts are not clamped from below. -/
theorem C4_counterexample :
    parseSlidesRange ("0-2") 6 = ([0, 1, 2], false) ∧
    ¬(∀ x ∈ (parseSlidesRange ("0-2") 6).1, 1 ≤ x) := by
  refine ⟨by decide, by decide⟩

/-- Claim C4 (amended): for every selection string and every deck, the
Range Selector's output is sorted and duplicate-free and every index is at
most `total_slides` (ends are clamped from above), but sub-range starts are
not clamped from below, so index 0 can occur; any input containing no digit
at all — including `"all"`, the empty string and malformed text — yields
exactly the full range `[1..total_slides]`.  (A bare out-of-range integer
instead yields the empty list, see the claim about the fallback.) -/
theorem C4_theorem (s : String) (total : Nat) :
    List.Sorted (· < ·) (parseSlidesRange s total).1 ∧
    (∀ x ∈ (parseSlidesRange s total).1, x ≤ total) ∧
    ((∀ c ∈ s.data, isDigitChar c = false) →
      (parseSlidesRange s total).1 = List.range' 1 total) := by
  unfold parseSlidesRange
  dsimp only
  split_ifs with h1 h2 h3 h4
  · exact ⟨sorted_lt_range' 1 total,
      fun x hx => by have := List.mem_range'_1.mp hx; omega,
      fun _ => rfl⟩
  · refine ⟨by simp, ?_, ?_⟩
    · intro x hx
      rw [List.mem_singleton] at hx
      subst hx
      exact h3.2
    · intro hnd
      exfalso
      have : pyIsDigit (pyStrip s.data) = false :=
        pyIsDigit_false_of_noDigit (pyStrip_subset s.data) hnd
      rw [h2] at this
      simp at this
  · refine ⟨by simp, by simp, ?_⟩
    intro hnd
    exfalso
    have : pyIsDigit (pyStrip s.data) = false :=
      pyIsDigit_false_of_noDigit (pyStrip_subset s.data) hnd
    rw [h2] at this
    simp at this
  · exact ⟨sorted_lt_range' 1 total,
      fun x hx => by have := List.mem_range'_1.mp hx; omega,
      fun _ => rfl⟩
  · refine ⟨sorted_lt_sortDedup _, ?_, ?_⟩
    · intro x hx
      have hx' : x ∈ (rawSelection total
          ((pyStrip s.data).filter (· ≠ (' ')))).dedup :=
        (List.perm_insertionSort _ _).mem_iff.mp hx
      exact rawSelection_le total _ x (List.mem_dedup.mp hx')
    · intro hnd
      exfalso
      apply h4
      have hsub : ∀ c ∈ (pyStrip s.data).filter (· ≠ (' ')),
          isDigitChar c = false := by
        intro c hc
        exact hnd c (pyStrip_subset s.data c (List.mem_filter.mp hc).1)
      rw [rawSelection_noDigit total _ hsub]
      rfl

theorem C4_witness :
    (parseSlidesRange ("abc") 3).1 = List.range' 1 3 ∧ 2 ≤ 3 :=
  ⟨(C4_theorem ("abc") 3).2.2 (by decide),
   (C4_theorem ("abc") 3).2.1 2 (by decide)⟩

/-! ## Claim C5 — empty selections and the fallback to "all" -/

/-- Claim C5 (as stated, refuted): the bare out-of-range integer `"10"` on
a 6-slide deck does not fall back to the full range — the parser returns
the empty list with the fallback flag unset, and the orchestrator then
returns the empty result pair with the recorded effective range still
`"10"`. -/
theorem C5_counterexample :
    parseSlidesRange ("10") 6 = ([], false) ∧
    analyzeSelectedSlides ⟨[], [], ("all")⟩ c5Deck ("10") =
      (⟨[], [], ("10")⟩, [], none) := by
  refine ⟨by decide, by decide⟩

/-- Claim C5 (amended): whenever the fallback flag fires the parser indeed
returns the full range (and the recorded range becomes "all"), but a bare
integer outside `[1, total_slides]` returns early with the empty selection
and no fallback, upon which `analyze_selected_slides` returns the empty
result pair, leaving the recorded effective range at the requested
string. -/
theorem C5_theorem (s : String) (st : AnalyzerState) (deck : List SlideData)
    (hd : pyIsDigit (pyStrip s.data) = true)
    (hout : ¬(1 ≤ pyToNat (pyStrip s.data) ∧
      pyToNat (pyStrip s.data) ≤ deck.length)) :
    parseSlidesRange s deck.length = ([], false) ∧
    analyzeSelectedSlides st deck s =
      ({ st with selectedRange := s }, [], none) ∧
    (∀ s2 : String, ∀ t2 : Nat, (parseSlidesRange s2 t2).2 = true →
      (parseSlidesRange s2 t2).1 = List.range' 1 t2) := by
  have hne : s ≠ ("") := by
    intro hcon
    rw [hcon] at hd
    simp [pyStrip, pyIsDigit] at hd
  have hdig : ∃ c ∈ s.data, isDigitChar c = true := by
    unfold pyIsDigit at hd
    rw [Bool.and_eq_true] at hd
    obtain ⟨hne', hall⟩ := hd
    cases hstrip : pyStrip s.data with
    | nil => rw [hstrip] at hne'; simp at hne'
    | cons c rest =>
      rw [hstrip] at hall
      refine ⟨c, pyStrip_subset s.data c
        (by rw [hstrip]; exact List.mem_cons_self _ _), ?_⟩
      exact List.all_eq_true.mp hall c (List.mem_cons_self _ _)
  have hlow : pyLowerS s ≠ ("all") := by
    intro hcon
    obtain ⟨c, hc, hcd⟩ := hdig
    have hid : pyLowerChar c = c := by
      unfold isDigitChar at hcd
      rw [Bool.and_eq_true, decide_eq_true_iff, decide_eq_true_iff] at hcd
      unfold pyLowerChar
      rw [if_neg (by omega), if_neg (by omega), if_neg (by omega)]
    have hmem : pyLowerChar c ∈ (pyLowerS s).data :=
      List.mem_map_of_mem pyLowerChar hc
    rw [hcon, hid] at hmem
    have hdata : ("all").data = [('a'), ('l'), ('l')] := rfl
    rw [hdata] at hmem
    simp only [List.mem_cons, List.not_mem_nil, or_false] at hmem
    rcases hmem with h | h | h <;>
      (rw [h] at hcd; exact absurd hcd (by decide))
  have hp1 : parseSlidesRange s deck.length = ([], false) := by
    unfold parseSlidesRange
    rw [if_neg (by push_neg; exact ⟨hne, hlow⟩)]
    dsimp only
    rw [if_pos hd, if_neg hout]
  refine ⟨hp1, ?_, ?_⟩
  · unfold analyzeSelectedSlides
    dsimp only
    rw [hp1]
    simp
  · intro s2 t2 htrue
    unfold parseSlidesRange at htrue ⊢
    dsimp only at htrue ⊢
    split_ifs at htrue ⊢
    all_goals simp_all

theorem C5_witness :
    parseSlidesRange ("10") c5Deck.length = ([], false) ∧
    analyzeSelectedSlides ⟨[], [], ("all")⟩ c5Deck ("10") =
      ({ (⟨[], [], ("all")⟩ : AnalyzerState) with selectedRange := ("10") },
        [], none) ∧
    (∀ s2 : String, ∀ t2 : Nat, (parseSlidesRange s2 t2).2 = true →
      (parseSlidesRange s2 t2).1 = List.range' 1 t2) :=
  C5_theorem ("10") ⟨[], [], ("all")⟩ c5Deck (by decide) (by decide)

/-! ## Claim C9 — the status/violations invariant -/

theorem rows_invariant_of_patch (fc : Nat) (old fresh : List Row)
    (hold : ∀ r ∈ old, rowInvariant r ∧ tagsWf r)
    (hfresh : ∀ r ∈ fresh, rowInvariant r ∧ tagsWf r) :
    ∀ r ∈ fontPatch fc (old ++ fresh), rowInvariant r := by
  intro r hr
  unfold fontPatch at hr
  obtain ⟨r0, hr0, rfl⟩ := List.mem_map.mp hr
  rcases List.mem_append.mp hr0 with h | h
  · exact (fontPatchRow_invariant fc r0 (hold r0 h).1 (hold r0 h).2).1
  · exact (fontPatchRow_invariant fc r0 (hfresh r0 h).1 (hfresh r0 h).2).1

/-- Claim C9 (confirmed): every row returned by a run — including after the
deferred font-verdict patch, and for any rows already stored on the
instance that themselves satisfy the invariant — has a non-empty violation
list exactly when its status differs from the `"OK"` sentinel, and a
non-empty list is comma-joined verbatim into the status. -/
theorem C9_theorem (st : AnalyzerState) (deck : List SlideData)
    (rangeStr : String)
    (hprev : ∀ r ∈ st.results, rowInvariant r ∧ tagsWf r) :
    ∀ r ∈ (analyzeSelectedSlides st deck rangeStr).2.1, rowInvariant r := by
  intro r hr
  unfold analyzeSelectedSlides at hr
  dsimp only at hr
  split_ifs at hr
  all_goals
    first
      | (refine rows_invariant_of_patch _ _ _ hprev ?_ r hr
         intro r' hr'
         obtain ⟨i, -, rfl⟩ := List.mem_map.mp hr'
         exact analyzeSlideRow_invariant i _)
      | simp at hr

theorem C9_witness :
    rowInvariant (analyzeSlideRow 1 benignSlide) :=
  C9_theorem ⟨[], [], ("all")⟩ c10Deck ("all") (by simp)
    (analyzeSlideRow 1 benignSlide) (by decide)

/-! ## Claim C10 — accumulation of results across calls -/

/-- Characterization of one non-empty-selection call: the returned rows are
the stored rows (prior results kept, new per-slide rows appended, the font
patch mapped over all of them), and the statistics are computed from the
fresh rows alone. -/
theorem analyzeSelectedSlides_spec (st : AnalyzerState)
    (deck : List SlideData) (rangeStr : String)
    (h : ¬((parseSlidesRange rangeStr deck.length).1.isEmpty = true)) :
    analyzeSelectedSlides st deck rangeStr =
      (let parsed := parseSlidesRange rangeStr deck.length
       let fresh := parsed.1.map fun i =>
         analyzeSlideRow i (pyIndex deck ((i : Int) - 1))
       let fonts1 := (parsed.1.map fun i =>
         pyIndex deck ((i : Int) - 1)).foldl
           (fun acc sd => collectFonts acc sd.fonts) st.usedFonts
       let results2 := fontPatch (filteredFontCount fonts1)
         (st.results ++ fresh)
       (⟨results2, fonts1,
         if parsed.2 then ("all") else rangeStr⟩, results2,
        some { hasAnimations := fresh.any fun r => !r.animsOk
               hasTransitions := deck.any (·.transitionMarker)
               fontsCount := fonts1.length
               backgroundIssues := fresh.countP fun r => !r.bgOk
               textOnImages := fresh.countP (·.textOnImg)
               totalImages := (fresh.map (·.images)).sum
               ocrUsed := fresh.any fun r => r.ocrText ≠ ("")
               ocrTextFound := fresh.countP (·.textOnImg)
               totalOcrCharacters :=
                 (fresh.map fun r => r.ocrText.data.length).sum
               selectedSlidesCount := parsed.1.length
               selectedSlidesRange := rangeStr
               totalSlidesInPresentation := deck.length })) := by
  unfold analyzeSelectedSlides
  dsimp only
  rw [if_neg h]
  split_ifs <;> rfl

theorem fontPatch_length (fc : Nat) (l : List Row) :
    (fontPatch fc l).length = l.length := by
  unfold fontPatch
  exact List.length_map l _

theorem fontPatch_take_core (fc : Nat) (old fresh : List Row) :
    ((fontPatch fc (old ++ fresh)).take old.length).map rowCore =
      old.map rowCore := by
  unfold fontPatch
  rw [List.map_append, List.take_left' (by rw [List.length_map]),
    List.map_map]
  refine List.map_congr_left fun r _ => ?_
  simpa using fontPatchRow_core fc r

/-- Claim C10 (confirmed): a second call on the same instance returns a
list holding the first call's rows followed by the new slide rows (the
stored results are never cleared; the font patch may only touch the
font-verdict fields of the prior rows), and the second call's statistics
are identical to those of a run from a fresh results list with the same
accumulated font set — the deck statistics count only the new rows. -/
theorem C10_theorem (st : AnalyzerState) (deck1 deck2 : List SlideData)
    (r1 r2 : String)
    (h1 : ¬((parseSlidesRange r1 deck1.length).1.isEmpty = true))
    (h2 : ¬((parseSlidesRange r2 deck2.length).1.isEmpty = true)) :
    ((analyzeSelectedSlides
        (analyzeSelectedSlides st deck1 r1).1 deck2 r2).2.1).length =
      ((analyzeSelectedSlides st deck1 r1).2.1).length +
        (parseSlidesRange r2 deck2.length).1.length ∧
    (((analyzeSelectedSlides
        (analyzeSelectedSlides st deck1 r1).1 deck2 r2).2.1).take
        ((analyzeSelectedSlides st deck1 r1).2.1).length).map rowCore =
      ((analyzeSelectedSlides st deck1 r1).2.1).map rowCore ∧
    (analyzeSelectedSlides
        (analyzeSelectedSlides st deck1 r1).1 deck2 r2).2.2 =
      (analyzeSelectedSlides
        ⟨[], (analyzeSelectedSlides st deck1 r1).1.usedFonts, r2⟩
        deck2 r2).2.2 := by
  have s1 := analyzeSelectedSlides_spec st deck1 r1 h1
  have s2 := analyzeSelectedSlides_spec
    (analyzeSelectedSlides st deck1 r1).1 deck2 r2 h2
  have s3 := analyzeSelectedSlides_spec
    ⟨[], (analyzeSelectedSlides st deck1 r1).1.usedFonts, r2⟩ deck2 r2 h2
  refine ⟨?_, ?_, ?_⟩
  · rw [s2, s1]
    dsimp only
    rw [fontPatch_length, List.length_append, List.length_map]
  · rw [s2, s1]
    dsimp only
    exact fontPatch_take_core _ _ _
  · rw [s2, s3, s1]

theorem C10_witness :
    ((analyzeSelectedSlides
        (analyzeSelectedSlides ⟨[], [], ("all")⟩ c10Deck ("all")).1
        c10Deck ("all")).2.1).length =
      ((analyzeSelectedSlides ⟨[], [], ("all")⟩ c10Deck ("all")).2.1).length +
        (parseSlidesRange ("all") c10Deck.length).1.length ∧
    (((analyzeSelectedSlides
        (analyzeSelectedSlides ⟨[], [], ("all")⟩ c10Deck ("all")).1
        c10Deck ("all")).2.1).take
        ((analyzeSelectedSlides ⟨[], [], ("all")⟩ c10Deck
          ("all")).2.1).length).map rowCore =
      ((analyzeSelectedSlides ⟨[], [], ("all")⟩ c10Deck
        ("all")).2.1).map rowCore ∧
    (analyzeSelectedSlides
        (analyzeSelectedSlides ⟨[], [], ("all")⟩ c10Deck ("all")).1
        c10Deck ("all")).2.2 =
      (analyzeSelectedSlides
        ⟨[], (analyzeSelectedSlides ⟨[], [], ("all")⟩ c10Deck
          ("all")).1.usedFonts, ("all")⟩
        c10Deck ("all")).2.2 :=
  C10_theorem ⟨[], [], ("all")⟩ c10Deck c10Deck ("all") ("all")
    (by decide) (by decide)
